import Mathlib

/-!
Shallow embedding of the blackholedex-dashboard pipeline scripts
(`scripts/api_fetch.py`, `scripts/build_summary.py`, `scripts/post_tweet.py`)
together with theorems settling the specification claims.

Python strings are modelled as lists of characters (`PyStr`, so that `len`
is the number of code points), Python floats as `PyFloat` (a finite rational
or NaN; infinities and exponent literals are never produced by the inputs
any claim is about and are not modelled), and absent values as `Option`.
-/

namespace Blackhole


/-- Model of a Python `float` value: a finite rational or NaN. -/
inductive PyFloat where
  | nan : PyFloat
  | num (q : ℚ) : PyFloat
deriving DecidableEq

/-- Python float addition: NaN is absorbing, finite values add exactly
(claims never depend on rounding, so finite arithmetic is exact). -/
def PyFloat.add : PyFloat → PyFloat → PyFloat
  | .num a, .num b => .num (a + b)
  | _, _ => .nan

/-- Python truthiness of a float: `0.0` is falsy; every other float,
including NaN, is truthy. -/
def PyFloat.truthy : PyFloat → Bool
  | .num q => q != 0
  | .nan => true

/-- Python string model: a list of characters. -/
abbrev PyStr := List Char

/-- The whitespace characters removed by Python `str.strip` (ASCII subset;
the summary files only ever contain these). -/
def pySpace (c : Char) : Bool :=
  c == ' ' || c == '\t' || c == '\n' || c == '\r' || c == '\x0b' || c == '\x0c'

/-- Python `str.strip()`. -/
def pyStrip (s : PyStr) : PyStr :=
  ((s.dropWhile pySpace).reverse.dropWhile pySpace).reverse

/-- Python `str.rstrip()`. -/
def pyRstrip (s : PyStr) : PyStr :=
  (s.reverse.dropWhile pySpace).reverse

/-- Python `"\n".join(...)`. -/
def joinNl (ls : List PyStr) : PyStr :=
  List.intercalate ['\n'] ls

/-- Split on newline characters (the summary files are joined with `"\n"`,
so `str.splitlines` coincides with splitting on `'\n'` there). -/
def splitNl : PyStr → List PyStr
  | [] => [[]]
  | c :: rest =>
    if c = '\n' then [] :: splitNl rest
    else
      match splitNl rest with
      | [] => [[c]]
      | h :: t => (c :: h) :: t

/-! ## `scripts/post_tweet.py` -/

/-- The module constant `HASHTAGS` of `scripts/post_tweet.py`. -/
def HASHTAGS : PyStr := "#DeFi #Avalanche #DEX #BlackholeDex".data

/-- The module constant `MAX_LEN` of `scripts/post_tweet.py`. -/
def MAX_LEN : Nat := 280

/-- `lines = [l.strip() for l in txt.splitlines() if l.strip()]`. -/
def summaryLines (txt : PyStr) : List PyStr :=
  ((splitNl txt).map pyStrip).filter (fun l => !l.isEmpty)

/-- The accumulation loop of `load_summary`: keep whole lines while the
joined text stays within 240 characters; stop at the first line that would
overflow. -/
def keepLoop (acc : List PyStr) : List PyStr → List PyStr
  | [] => acc
  | l :: rest =>
    if 240 < (joinNl (acc ++ [l])).length then acc
    else keepLoop (acc ++ [l]) rest

/-- The `keep` list computed by `load_summary` for a given file content. -/
def loadKeep (raw : PyStr) : List PyStr :=
  keepLoop [] (summaryLines (pyStrip raw))

/-- The `core` string of `load_summary`: the joined kept lines, or the first
240 characters of the stripped text when no whole line fits. -/
def loadCore (raw : PyStr) : PyStr :=
  if (loadKeep raw).isEmpty then pyRstrip ((pyStrip raw).take 240)
  else joinNl (loadKeep raw)

/-- `load_summary` of `scripts/post_tweet.py`, as a function of the summary
file content (a missing file is read as the empty string by the caller
guard and never reaches the composition logic). -/
def load_summary (raw : PyStr) : PyStr :=
  let core := loadCore raw
  let candidate := pyStrip (core ++ '\n' :: HASHTAGS)
  if candidate.length ≤ MAX_LEN then candidate else pyRstrip (core.take MAX_LEN)

/-! ## The time-series store (`upsert_today` of `scripts/api_fetch.py` and
`scripts/build_summary.py`; the two copies are identical) -/

/-- One row of `data/black_metrics.csv`: the columns written by
`upsert_today`.  Metric cells are optional floats (`None`/NaN/value). -/
structure MetricRow where
  date : PyStr
  volume_24h_usd : Option PyFloat
  tvl_usd : Option PyFloat
  fees_24h_usd : Option PyFloat
  fees_7d_usd : Option PyFloat
  revenue_24h_usd : Option PyFloat
  revenue_7d_usd : Option PyFloat
  bribes_24h_usd : Option PyFloat
  bribes_7d_usd : Option PyFloat
  avg7d_volume_usd : Option PyFloat
deriving DecidableEq

/-- How a cell value lands in a pandas frame: `None` and float NaN both
become the single missing marker NaN, which `to_csv` writes as an empty
cell and `pd.notna` treats as absent.  We represent that marker as `none`. -/
def pdCell (v : Option PyFloat) : Option PyFloat :=
  match v with
  | some .nan => none
  | v => v

/-- A row as it exists inside a pandas frame / the persisted CSV: every
metric cell collapsed through `pdCell`. -/
def pdRow (r : MetricRow) : MetricRow :=
  { date := r.date
    volume_24h_usd := pdCell r.volume_24h_usd
    tvl_usd := pdCell r.tvl_usd
    fees_24h_usd := pdCell r.fees_24h_usd
    fees_7d_usd := pdCell r.fees_7d_usd
    revenue_24h_usd := pdCell r.revenue_24h_usd
    revenue_7d_usd := pdCell r.revenue_7d_usd
    bribes_24h_usd := pdCell r.bribes_24h_usd
    bribes_7d_usd := pdCell r.bribes_7d_usd
    avg7d_volume_usd := pdCell r.avg7d_volume_usd }

/-- The finite numeric content of a cell (`pd.to_numeric(..., errors="coerce")`
leaves NaN/missing as NaN, which the rolling mean then skips). -/
def finitePart (v : Option PyFloat) : Option ℚ :=
  match v with
  | some (.num q) => some q
  | _ => none

/-- One entry of the pandas rolling mean: the mean of the non-missing
values among positions `i-6 .. i` of the column (a positional window of at
most 7 rows), or missing when all of them are missing. -/
def windowMean7 (xs : List (Option PyFloat)) (i : Nat) : Option PyFloat :=
  let vals := ((xs.take (i + 1)).drop (i + 1 - 7)).filterMap finitePart
  if vals.isEmpty then none else some (.num (vals.sum / vals.length))

/-- `pd.Series.rolling(window=7, min_periods=1).mean()` applied to a whole
column. -/
def rollingMean7 (xs : List (Option PyFloat)) : List (Option PyFloat) :=
  (List.range xs.length).map (windowMean7 xs)

/-- `{ r with avg7d_volume_usd := a }` : one row with its rolling column
overwritten. -/
def setAvg (r : MetricRow) (a : Option PyFloat) : MetricRow :=
  { r with avg7d_volume_usd := a }

/-- `df["avg7d_volume_usd"] = s.values`: overwrite the rolling column. -/
def applyAvg (rows : List MetricRow) (avgs : List (Option PyFloat)) : List MetricRow :=
  List.zipWith setAvg rows avgs

/-- Sort key of `df.sort_values("date")`: lexicographic order on the date
string. -/
def rowLe (a b : MetricRow) : Prop := a.date ≤ b.date

instance : DecidableRel rowLe := fun a b => inferInstanceAs (Decidable (a.date ≤ b.date))

instance : IsTotal MetricRow rowLe := ⟨fun a b => le_total a.date b.date⟩

instance : IsTrans MetricRow rowLe := ⟨fun _ _ _ h₁ h₂ => le_trans h₁ h₂⟩

/-- `upsert_today(csv_path, date_str, row)`: drop any stored row with the
same date, append the new row, sort by date and recompute the rolling
7-row volume average for every row.  The store is modelled as the list of
persisted rows; entering the frame collapses `None`/NaN via `pdRow`. -/
def upsert_today (df : List MetricRow) (date_str : PyStr) (row : MetricRow) : List MetricRow :=
  let df0 := df.map pdRow
  let df1 := df0.filter (fun r => r.date != date_str)
  let df2 := df1 ++ [pdRow row]
  let df3 := List.insertionSort rowLe df2
  applyAvg df3 (rollingMean7 (df3.map (fun r => r.volume_24h_usd)))

/-- Convenience constructor: a row with the given date and volume and all
other metric cells absent. -/
def mkRow (d : PyStr) (v : Option PyFloat) : MetricRow :=
  { date := d, volume_24h_usd := v, tvl_usd := none, fees_24h_usd := none
    fees_7d_usd := none, revenue_24h_usd := none, revenue_7d_usd := none
    bribes_24h_usd := none, bribes_7d_usd := none, avg7d_volume_usd := none }

/-! ## Building today's row (`main` of `scripts/api_fetch.py`, lines 251-302):
fetch results, scrape fill-in, and the `row` dict passed to `upsert_today` -/

/-- The dict returned by `get_blackhole_fees_and_revenue`. -/
structure FeesMap where
  fees_24h_usd : Option PyFloat
  fees_7d_usd : Option PyFloat
  revenue_24h_usd : Option PyFloat
  revenue_7d_usd : Option PyFloat
deriving DecidableEq

/-- The dict returned by `get_blackhole_bribes`. -/
structure BribeMap where
  bribes_24h_usd : Option PyFloat
  bribes_7d_usd : Option PyFloat
deriving DecidableEq

/-- The dict returned by `scrape_llama_blackhole_metrics`: it only contains
keys whose value is not `None`, so an absent key is modelled as `none`. -/
structure Scraped where
  tvl_usd : Option PyFloat
  volume_24h_usd : Option PyFloat
  fees_24h_usd : Option PyFloat
  fees_7d_usd : Option PyFloat
  revenue_24h_usd : Option PyFloat
  revenue_7d_usd : Option PyFloat
  bribes_24h_usd : Option PyFloat
  bribes_7d_usd : Option PyFloat
deriving DecidableEq

/-- Python truthiness of the scraped dict: `if scraped:` is the
non-emptiness test. -/
def Scraped.isEmpty (s : Scraped) : Bool :=
  s.tvl_usd.isNone && s.volume_24h_usd.isNone && s.fees_24h_usd.isNone &&
    s.fees_7d_usd.isNone && s.revenue_24h_usd.isNone && s.revenue_7d_usd.isNone &&
    s.bribes_24h_usd.isNone && s.bribes_7d_usd.isNone

/-- `bh_vol_24h == 0` on an optional float (`None == 0` is false in Python,
but `main` tests `is None` separately; `nan == 0` is false). -/
def pyIsZero (v : Option PyFloat) : Bool :=
  match v with
  | some (.num q) => q == 0
  | _ => false

/-- The `row` dict built by `main` of `scripts/api_fetch.py`: the fetched
values, patched by the public-page scrape when it produced anything, with
no reference to previously persisted rows.  (`float(x) if
isinstance(x, (int, float)) else None` is the identity on an
optional-float value.)  `main` of `scripts/build_summary.py` is the same
without the scrape step, i.e. the `scraped` dict empty. -/
def main_today_row (date_str : PyStr) (bh_vol_24h tvl_val : Option PyFloat)
    (fees_map : FeesMap) (bribe_map : BribeMap) (scraped : Scraped) : MetricRow :=
  let fill := !scraped.isEmpty
  let tvl2 :=
    if fill && tvl_val.isNone && scraped.tvl_usd.isSome then scraped.tvl_usd
    else tvl_val
  let vol2 :=
    if fill && (bh_vol_24h.isNone || pyIsZero bh_vol_24h) &&
        scraped.volume_24h_usd.isSome then scraped.volume_24h_usd
    else bh_vol_24h
  let f24 :=
    if fill && fees_map.fees_24h_usd.isNone && scraped.fees_24h_usd.isSome then
      scraped.fees_24h_usd
    else fees_map.fees_24h_usd
  let f7 :=
    if fill && fees_map.fees_7d_usd.isNone && scraped.fees_7d_usd.isSome then
      scraped.fees_7d_usd
    else fees_map.fees_7d_usd
  let r24 :=
    if fill && fees_map.revenue_24h_usd.isNone && scraped.revenue_24h_usd.isSome then
      scraped.revenue_24h_usd
    else fees_map.revenue_24h_usd
  let r7 :=
    if fill && fees_map.revenue_7d_usd.isNone && scraped.revenue_7d_usd.isSome then
      scraped.revenue_7d_usd
    else fees_map.revenue_7d_usd
  let b24 :=
    if fill && bribe_map.bribes_24h_usd.isNone && scraped.bribes_24h_usd.isSome then
      scraped.bribes_24h_usd
    else bribe_map.bribes_24h_usd
  let b7 :=
    if fill && bribe_map.bribes_7d_usd.isNone && scraped.bribes_7d_usd.isSome then
      scraped.bribes_7d_usd
    else bribe_map.bribes_7d_usd
  { date := date_str, volume_24h_usd := vol2, tvl_usd := tvl2,
    fees_24h_usd := f24, fees_7d_usd := f7, revenue_24h_usd := r24,
    revenue_7d_usd := r7, bribes_24h_usd := b24, bribes_7d_usd := b7,
    avg7d_volume_usd := none }

/-- The rolling statistic as the specification words it: the arithmetic mean
of the up to 7 most recent non-absent volume values, where absent rows do
not consume window slots.  (Stated from the spec, for comparison with
`windowMean7`, which is what the code computes via pandas.) -/
def specLast7AvailableMean (vols : List (Option PyFloat)) : Option PyFloat :=
  let vals := vols.filterMap finitePart
  let last7 := vals.drop (vals.length - 7)
  if last7.isEmpty then none else some (.num (last7.sum / last7.length))

/-- A prior stored series with one non-absent volume followed by six gap
rows: the shape on which the two rolling semantics disagree. -/
def c4prior : List MetricRow :=
  [mkRow "d1".data (some (.num 10)), mkRow "d2".data none, mkRow "d3".data none,
   mkRow "d4".data none, mkRow "d5".data none, mkRow "d6".data none,
   mkRow "d7".data none]

/-! ## JSON values and the fetch helpers of `scripts/api_fetch.py`
(`safe_get_json`, `to_float`, `get_blackhole_volume_24h`; the copies in
`scripts/build_summary.py` are identical) -/

/-- Parsed JSON payloads (what `r.json()` can return). -/
inductive Json where
  | null : Json
  | bool (b : Bool) : Json
  | num (q : ℚ) : Json
  | str (s : String) : Json
  | arr (items : List Json) : Json
  | obj (fields : List (String × Json)) : Json

/-- Key lookup in a JSON object (dict keys are unique, the first match). -/
def jLookup (fields : List (String × Json)) (k : String) : Option Json :=
  (fields.find? (fun p => p.1 == k)).map (fun p => p.2)

/-- Python truthiness of a JSON value. -/
def jTruthy : Json → Bool
  | .null => false
  | .bool b => b
  | .num q => q != 0
  | .str s => !s.isEmpty
  | .arr l => !l.isEmpty
  | .obj l => !l.isEmpty

/-- Python `x or d`. -/
def pyOr (x d : Json) : Json :=
  if jTruthy x then x else d

/-- Python `p.get(k)`: only dicts have `.get`; a missing key yields `None`. -/
def pyGet : Json → String → Except String Json
  | .obj l, k => .ok ((jLookup l k).getD .null)
  | _, _ => .error "AttributeError: get"

/-- Python `p.get(k, default)`. -/
def pyGetD : Json → String → Json → Except String Json
  | .obj l, k, dflt => .ok ((jLookup l k).getD dflt)
  | _, _, _ => .error "AttributeError: get"

/-- `str.lower` on characters. -/
def strLower (s : String) : String :=
  String.mk (s.data.map Char.toLower)

/-- Whether `sub` starts the list `hay`. -/
def isPrefixB : List Char → List Char → Bool
  | [], _ => true
  | _ :: _, [] => false
  | a :: as, b :: bs => a == b && isPrefixB as bs

/-- Whether `sub` occurs contiguously inside `hay`. -/
def infixAt : List Char → List Char → Bool
  | sub, [] => sub.isEmpty
  | sub, c :: rest => isPrefixB sub (c :: rest) || infixAt sub rest

/-- Python `sub in hay` on strings. -/
def strContains (hay sub : String) : Bool :=
  infixAt sub.data hay.data

/-- Python `(x or "").lower()`: fails with `AttributeError` when `x` is
truthy but not a string. -/
def pyLowerOr (x : Json) : Except String String :=
  match pyOr x (.str "") with
  | .str s => .ok (strLower s)
  | _ => .error "AttributeError: lower"

/-- `float(s)` on a string: optional sign, digits with an optional decimal
point, or `nan`; anything else raises `ValueError` (`none` here).
Exponent notation and infinities never occur in these feeds and are not
modelled. -/
def strToFloat (s : String) : Option PyFloat :=
  let t := pyStrip s.data
  let core := match t with
    | '-' :: rest => rest
    | '+' :: rest => rest
    | cs => cs
  let neg : Bool := match t with
    | '-' :: _ => true
    | _ => false
  if core.map Char.toLower = "nan".data then some .nan
  else
    let ip := core.takeWhile Char.isDigit
    let rest := core.drop ip.length
    let sgn : ℚ := if neg then -1 else 1
    let natVal : List Char → ℚ := fun cs =>
      ((cs.foldl (fun n c => n * 10 + (c.toNat - 48)) 0 : Nat) : ℚ)
    match rest with
    | [] => if ip.isEmpty then none else some (.num (sgn * natVal ip))
    | '.' :: fp =>
      if fp.all Char.isDigit && !(ip.isEmpty && fp.isEmpty) then
        some (.num (sgn * (natVal ip + natVal fp / (10 : ℚ) ^ fp.length)))
      else none
    | _ => none

/-- `to_float` of `scripts/api_fetch.py`: `None` for `None`, `float(x)`
with every exception swallowed to `None` otherwise (`float` of a bool is
`1.0`/`0.0`; lists, dicts raise `TypeError`, unparsable strings raise
`ValueError`, both caught). -/
def to_float (x : Json) : Option PyFloat :=
  match x with
  | .null => none
  | .num q => some (.num q)
  | .bool b => some (.num (if b then 1 else 0))
  | .str s => strToFloat s
  | _ => none

/-- What one HTTP fetch can do: raise somewhere inside the `try` block
(connection error, timeout, non-2xx via `raise_for_status`, or a non-JSON
body via `r.json()`), or deliver a parsed JSON payload. -/
inductive FetchOutcome where
  | exc (msg : String) : FetchOutcome
  | json (j : Json) : FetchOutcome

/-- `safe_get_json` of `scripts/api_fetch.py`: the parsed payload, or an
error-marked dict; it never lets the exception escape. -/
def safe_get_json (url : String) (o : FetchOutcome) : Json :=
  match o with
  | .json j => j
  | .exc m => .obj [("_error", .str m), ("_url", .str url)]

/-- The DexScreener search URL queried by `get_blackhole_volume_24h`. -/
def dsSearchUrl : String :=
  "https://api.dexscreener.com/latest/dex/search?q=blackhole%20avalanche"

/-- `pairs = (payload or \x7b\x7d).get("pairs") or []`, then `for p in pairs`:
iterating a list yields its items, a string its characters, a dict its keys;
other truthy values raise `TypeError`. -/
def pairsOf (payload : Json) : Except String (List Json) := do
  let base := pyOr payload (Json.obj [])
  let pairsJ ← pyGet base "pairs"
  match pyOr pairsJ (Json.arr []) with
  | .arr l => return l
  | .str s => return s.data.map (fun c => Json.str (String.mk [c]))
  | .obj l => return l.map (fun p => Json.str p.1)
  | _ => .error "TypeError: not iterable"

/-- One iteration of the pair loop in `get_blackhole_volume_24h`, carrying
`(total, matched)`.  Only the `float(v)` conversion is inside a `try`; the
`.get`/`.lower` calls can raise. -/
def volAccum (st : PyFloat × Nat) (p : Json) : Except String (PyFloat × Nat) := do
  let cidJ ← pyGet p "chainId"
  let cid ← pyLowerOr cidJ
  if cid ≠ "avalanche" then return st
  else
    let dexJ ← pyGet p "dexId"
    let dexid ← pyLowerOr dexJ
    let urlJ ← pyGet p "url"
    let urlp ← pyLowerOr urlJ
    if !(strContains dexid "blackhole" || strContains urlp "blackhole") then
      return st
    else
      let v24 ← pyGet p "volume24h"
      let volJ ← pyGetD p "volume" (.obj [])
      let v ← match volJ with
        | .obj l => Except.ok ((jLookup l "h24").getD v24)
        | _ => Except.error "AttributeError: get"
      match to_float v with
      | none => return st
      | some f => return (st.1.add f, st.2 + 1)

/-- `get_blackhole_volume_24h`: sum the 24h volumes of the matching pairs;
`None` when nothing matched.  The returned `Nat` is the `matched_pairs`
diagnostic. -/
def get_blackhole_volume_24h (o : FetchOutcome) :
    Except String (Option PyFloat × Nat) := do
  let payload := safe_get_json dsSearchUrl o
  let pairs ← pairsOf payload
  let st ← pairs.foldlM volAccum (PyFloat.num 0, 0)
  return (if st.2 > 0 then some st.1 else none, st.2)

/-- The JSON shapes of one `pairs` entry on which the loop body of
`get_blackhole_volume_24h` does not raise, mirroring its evaluation order. -/
def pairBenign (p : Json) : Bool :=
  match p with
  | .obj l =>
    match pyOr ((jLookup l "chainId").getD .null) (.str "") with
    | .str cid =>
      if strLower cid ≠ "avalanche" then true
      else
        match pyOr ((jLookup l "dexId").getD .null) (.str ""),
            pyOr ((jLookup l "url").getD .null) (.str "") with
        | .str dex, .str url =>
          if !(strContains (strLower dex) "blackhole" ||
              strContains (strLower url) "blackhole") then true
          else
            match (jLookup l "volume").getD (.obj []) with
            | .obj _ => true
            | _ => false
        | _, _ => false
    | _ => false
  | _ => false

/-- The payload shapes on which `get_blackhole_volume_24h` does not raise. -/
def payloadBenign (payload : Json) : Bool :=
  match pyOr payload (.obj []) with
  | .obj l =>
    match pyOr ((jLookup l "pairs").getD .null) (.arr []) with
    | .arr ps => ps.all pairBenign
    | _ => false
  | _ => false

/-- The metric cells of a row, in column order. -/
def MetricRow.cells (r : MetricRow) : List (Option PyFloat) :=
  [r.volume_24h_usd, r.tvl_usd, r.fees_24h_usd, r.fees_7d_usd,
   r.revenue_24h_usd, r.revenue_7d_usd, r.bribes_24h_usd, r.bribes_7d_usd,
   r.avg7d_volume_usd]

/-! ## `get_blackhole_fees_and_revenue` -/

/-- Python `f or 0.0` on an optional float: `None` and `0.0` are falsy. -/
def pyOrZero (x : Option PyFloat) : PyFloat :=
  match x with
  | none => .num 0
  | some v => if v.truthy then v else .num 0

/-- `(a or 0.0) + (c or 0.0) if (a is not None or c is not None) else None`:
the per-window combination in `get_blackhole_fees_and_revenue`. -/
def combineFees (a c : Option PyFloat) : Option PyFloat :=
  if a.isSome || c.isSome then some ((pyOrZero a).add (pyOrZero c)) else none

/-- `get_blackhole_fees_and_revenue`, as a function of the
`(fees_24h, fees_7d)` results of `get_fees_summary` for the AMM and CLMM
slugs; revenue is hard-wired to `None`. -/
def get_blackhole_fees_and_revenue
    (f24_amm f7_amm f24_clmm f7_clmm : Option PyFloat) : FeesMap :=
  { fees_24h_usd := combineFees f24_amm f24_clmm
    fees_7d_usd := combineFees f7_amm f7_clmm
    revenue_24h_usd := none
    revenue_7d_usd := none }

/-! ## Theorems -/

theorem length_pyRstrip_le (s : PyStr) : (pyRstrip s).length ≤ s.length := by
  unfold pyRstrip
  calc ((s.reverse.dropWhile pySpace).reverse).length
      = (s.reverse.dropWhile pySpace).length := List.length_reverse _
    _ ≤ s.reverse.length := (List.dropWhile_sublist _).length_le
    _ = s.length := List.length_reverse _

theorem length_pyStrip_le (s : PyStr) : (pyStrip s).length ≤ s.length := by
  unfold pyStrip
  calc (((s.dropWhile pySpace).reverse.dropWhile pySpace).reverse).length
      = ((s.dropWhile pySpace).reverse.dropWhile pySpace).length :=
        List.length_reverse _
    _ ≤ (s.dropWhile pySpace).reverse.length := (List.dropWhile_sublist _).length_le
    _ = (s.dropWhile pySpace).length := List.length_reverse _
    _ ≤ s.length := (List.dropWhile_sublist _).length_le

/-- C1: for every content of the summary file, the tweet text returned by
`load_summary` has length at most 280 characters (the configured budget),
including the appended reserved hashtag suffix when it is appended. -/
theorem c1_load_summary_length (raw : PyStr) : (load_summary raw).length ≤ 280 := by
  unfold load_summary
  dsimp only
  split
  · next h => exact h
  · next h =>
    calc (pyRstrip ((loadCore raw).take MAX_LEN)).length
        ≤ ((loadCore raw).take MAX_LEN).length := length_pyRstrip_le _
      _ ≤ MAX_LEN := by
          rw [List.length_take]
          exact min_le_left _ _

theorem length_rollingMean7 (xs : List (Option PyFloat)) :
    (rollingMean7 xs).length = xs.length := by
  simp [rollingMean7]

theorem date_setAvg (r : MetricRow) (a : Option PyFloat) : (setAvg r a).date = r.date := rfl

theorem vol_setAvg (r : MetricRow) (a : Option PyFloat) :
    (setAvg r a).volume_24h_usd = r.volume_24h_usd := rfl

theorem map_date_applyAvg :
    ∀ (rows : List MetricRow) (avgs : List (Option PyFloat)),
      rows.length ≤ avgs.length →
      (applyAvg rows avgs).map (fun r => r.date) = rows.map (fun r => r.date)
  | [], _, _ => by simp [applyAvg]
  | _ :: _, [], h => by simp at h
  | r :: rows, a :: avgs, h => by
    simp only [applyAvg, List.zipWith_cons_cons, List.map_cons, date_setAvg]
    rw [show List.zipWith setAvg rows avgs = applyAvg rows avgs from rfl,
      map_date_applyAvg rows avgs (Nat.le_of_succ_le_succ h)]

theorem map_vol_applyAvg :
    ∀ (rows : List MetricRow) (avgs : List (Option PyFloat)),
      rows.length ≤ avgs.length →
      (applyAvg rows avgs).map (fun r => r.volume_24h_usd) =
        rows.map (fun r => r.volume_24h_usd)
  | [], _, _ => by simp [applyAvg]
  | _ :: _, [], h => by simp at h
  | r :: rows, a :: avgs, h => by
    simp only [applyAvg, List.zipWith_cons_cons, List.map_cons, vol_setAvg]
    rw [show List.zipWith setAvg rows avgs = applyAvg rows avgs from rfl,
      map_vol_applyAvg rows avgs (Nat.le_of_succ_le_succ h)]

theorem applyAvg_applyAvg :
    ∀ (rows : List MetricRow) (avgs : List (Option PyFloat)),
      applyAvg (applyAvg rows avgs) avgs = applyAvg rows avgs
  | [], _ => by simp [applyAvg]
  | _ :: _, [] => by simp [applyAvg]
  | r :: rows, a :: avgs => by
    simp only [applyAvg, List.zipWith_cons_cons]
    rw [show List.zipWith setAvg rows avgs = applyAvg rows avgs from rfl,
      show List.zipWith setAvg (applyAvg rows avgs) avgs =
        applyAvg (applyAvg rows avgs) avgs from rfl,
      applyAvg_applyAvg rows avgs]
    rfl

theorem applyAvg_append (P R : List MetricRow) (A1 A2 : List (Option PyFloat))
    (h : P.length = A1.length) :
    applyAvg (P ++ R) (A1 ++ A2) = applyAvg P A1 ++ applyAvg R A2 :=
  List.zipWith_append _ _ _ _ _ h

theorem mem_applyAvg {r : MetricRow} :
    ∀ {rows : List MetricRow} {avgs : List (Option PyFloat)},
      r ∈ applyAvg rows avgs → ∃ t ∈ rows, ∃ a ∈ avgs, r = setAvg t a := by
  intro rows
  induction rows with
  | nil => intro avgs h; simp [applyAvg] at h
  | cons t rows ih =>
    intro avgs h
    cases avgs with
    | nil => simp [applyAvg] at h
    | cons a avgs =>
      simp only [applyAvg, List.zipWith_cons_cons, List.mem_cons] at h
      rcases h with h | h
      · exact ⟨t, by simp, a, by simp, h⟩
      · rcases ih h with ⟨t', ht', a', ha', rfl⟩
        exact ⟨t', by simp [ht'], a', by simp [ha'], rfl⟩

theorem pdCell_rollingMean7 {a : Option PyFloat} {xs : List (Option PyFloat)}
    (h : a ∈ rollingMean7 xs) : pdCell a = a := by
  simp only [rollingMean7, List.mem_map] at h
  rcases h with ⟨i, _, rfl⟩
  simp only [windowMean7]
  split
  · rfl
  · rfl

theorem pdCell_pdCell (v : Option PyFloat) : pdCell (pdCell v) = pdCell v := by
  unfold pdCell
  rcases v with _ | f
  · rfl
  · cases f <;> rfl

theorem pdRow_pdRow (r : MetricRow) : pdRow (pdRow r) = pdRow r := by
  simp [pdRow, pdCell_pdCell]

theorem date_pdRow (r : MetricRow) : (pdRow r).date = r.date := rfl

theorem pdRow_setAvg {r : MetricRow} {a : Option PyFloat}
    (hr : pdRow r = r) (ha : pdCell a = a) : pdRow (setAvg r a) = setAvg r a := by
  cases r
  simp only [pdRow, setAvg, MetricRow.mk.injEq] at hr ⊢
  exact ⟨hr.1, hr.2.1, hr.2.2.1, hr.2.2.2.1, hr.2.2.2.2.1, hr.2.2.2.2.2.1,
    hr.2.2.2.2.2.2.1, hr.2.2.2.2.2.2.2.1, hr.2.2.2.2.2.2.2.2.1, ha⟩

theorem orderedInsert_sorted_cons {α : Type} {r : α → α → Prop} [DecidableRel r]
    {x : α} {l : List α} (h : List.Sorted r (x :: l)) :
    List.orderedInsert r x l = x :: l := by
  cases l with
  | nil => rfl
  | cons b t =>
    rw [List.orderedInsert, if_pos]
    exact List.rel_of_sorted_cons h b (by simp)

theorem insertionSort_snoc_first {α : Type} {r : α → α → Prop} [DecidableRel r] :
    ∀ (Q : List α) {N : α}, List.Sorted r (N :: Q) → (∀ q ∈ Q, ¬ r q N) →
      List.insertionSort r (Q ++ [N]) = N :: Q
  | [], N, _, _ => rfl
  | q :: Q', N, hs, hq => by
    obtain ⟨hN, htail⟩ := List.sorted_cons.mp hs
    obtain ⟨hq', hQ'⟩ := List.sorted_cons.mp htail
    have hs' : List.Sorted r (N :: Q') :=
      List.sorted_cons.mpr ⟨fun b hb => hN b (List.mem_cons_of_mem _ hb), hQ'⟩
    have ih := insertionSort_snoc_first Q' hs'
      (fun b hb => hq b (List.mem_cons_of_mem _ hb))
    show List.orderedInsert r q (List.insertionSort r (Q' ++ [N])) = N :: q :: Q'
    rw [ih, List.orderedInsert, if_neg (hq q (List.mem_cons_self _ _)),
      orderedInsert_sorted_cons htail]

theorem insertionSort_middle {α : Type} {r : α → α → Prop} [DecidableRel r] :
    ∀ (P : List α) {Q : List α} {N : α},
      List.Sorted r (P ++ N :: Q) → (∀ q ∈ Q, ¬ r q N) →
      List.insertionSort r (P ++ Q ++ [N]) = P ++ N :: Q
  | [], Q, N, hs, hq => by
    simpa using insertionSort_snoc_first Q hs hq
  | p :: P', Q, N, hs, hq => by
    have hs2 : List.Sorted r (p :: (P' ++ N :: Q)) := hs
    obtain ⟨_, htail⟩ := List.sorted_cons.mp hs2
    have ih := insertionSort_middle P' htail hq
    show List.orderedInsert r p (List.insertionSort r (P' ++ Q ++ [N])) =
      p :: (P' ++ N :: Q)
    rw [ih, orderedInsert_sorted_cons hs2]

theorem sorted_rowLe_iff_map_date (l : List MetricRow) :
    List.Sorted rowLe l ↔ List.Pairwise (· ≤ ·) (l.map (fun r => r.date)) := by
  rw [List.pairwise_map]
  exact Iff.rfl

/-- The anatomy of one `upsert_today` result: a block of strictly earlier
rows, the (normalised) fresh row with its recomputed rolling value, and a
block of strictly later rows. -/
theorem upsert_today_decomp (df : List MetricRow) (d : PyStr) (row : MetricRow)
    (hrow : row.date = d) :
    ∃ (P Q : List MetricRow) (A1 : List (Option PyFloat)) (a : Option PyFloat)
      (A2 : List (Option PyFloat)),
      upsert_today df d row =
          applyAvg P A1 ++ setAvg (pdRow row) a :: applyAvg Q A2 ∧
        P.length = A1.length ∧
        Q.length = A2.length ∧
        List.Sorted rowLe (P ++ pdRow row :: Q) ∧
        (∀ p ∈ P, p.date ≠ d) ∧
        (∀ q ∈ Q, q.date ≠ d) ∧
        (∀ x ∈ P ++ pdRow row :: Q, pdRow x = x) ∧
        (∀ x ∈ A1 ++ a :: A2, pdCell x = x) ∧
        rollingMean7 ((P ++ pdRow row :: Q).map (fun r => r.volume_24h_usd)) =
          A1 ++ a :: A2 := by
  classical
  set N := pdRow row with hN
  set B := (df.map pdRow).filter (fun r => r.date != d) ++ [N] with hB
  set T := List.insertionSort rowLe B with hT
  set A := rollingMean7 (T.map (fun r => r.volume_24h_usd)) with hA
  have hup : upsert_today df d row = applyAvg T A := rfl
  have hperm : T.Perm B := List.perm_insertionSort _ _
  have hsort : List.Sorted rowLe T := List.sorted_insertionSort rowLe B
  have hNdate : N.date = d := hrow
  have hBnorm : ∀ x ∈ B, pdRow x = x := by
    intro x hx
    rcases List.mem_append.mp hx with hx | hx
    · rcases List.mem_map.mp (List.mem_of_mem_filter hx) with ⟨y, _, rfl⟩
      exact pdRow_pdRow y
    · rcases List.mem_singleton.mp hx with rfl
      exact pdRow_pdRow row
  have hTnorm : ∀ x ∈ T, pdRow x = x := fun x hx => hBnorm x (hperm.mem_iff.mp hx)
  have hcB : B.countP (fun r => r.date == d) = 1 := by
    rw [hB, List.countP_append]
    have h0 : ((df.map pdRow).filter (fun r => r.date != d)).countP
        (fun r => r.date == d) = 0 := by
      rw [List.countP_eq_zero]
      intro x hx
      have := List.of_mem_filter hx
      simpa using this
    have h1 : List.countP (fun r => r.date == d) [N] = 1 := by
      simp [List.countP_cons, hNdate]
    omega
  have hcT : T.countP (fun r => r.date == d) = 1 := by
    rw [hperm.countP_eq]; exact hcB
  have hNT : N ∈ T := hperm.mem_iff.mpr (by simp [hB])
  obtain ⟨P, Q, hPQ⟩ := List.append_of_mem hNT
  have hcPQ : P.countP (fun r => r.date == d) +
      (Q.countP (fun r => r.date == d) + 1) = 1 := by
    have := hcT
    rw [hPQ, List.countP_append, List.countP_cons] at this
    simpa [hNdate] using this
  have hPdate : ∀ p ∈ P, p.date ≠ d := by
    have h0 : P.countP (fun r => r.date == d) = 0 := by omega
    intro p hp
    have := List.countP_eq_zero.mp h0 p hp
    simpa using this
  have hQdate : ∀ q ∈ Q, q.date ≠ d := by
    have h0 : Q.countP (fun r => r.date == d) = 0 := by omega
    intro q hq
    have := List.countP_eq_zero.mp h0 q hq
    simpa using this
  have hsort' : List.Sorted rowLe (P ++ N :: Q) := hPQ ▸ hsort
  have hTnorm' : ∀ x ∈ P ++ N :: Q, pdRow x = x := hPQ ▸ hTnorm
  have hlenTA : A.length = T.length := by
    rw [hA, length_rollingMean7, List.length_map]
  have hlenT : T.length = P.length + 1 + Q.length := by
    rw [hPQ]
    simp
    omega
  have hPA : P.length ≤ A.length := by omega
  set A1 := A.take P.length with hA1
  have hlenA1 : A1.length = P.length := by
    rw [hA1, List.length_take]
    omega
  have hlendrop : (A.drop P.length).length = Q.length + 1 := by
    rw [List.length_drop]
    omega
  rcases hAd : A.drop P.length with _ | ⟨a, A2⟩
  · rw [hAd] at hlendrop
    simp at hlendrop
  have hAsplit : A = A1 ++ a :: A2 := by
    rw [hA1, ← hAd, List.take_append_drop]
  have hlenA2 : A2.length = Q.length := by
    rw [hAd] at hlendrop
    simpa using hlendrop
  have hAnorm : ∀ x ∈ A1 ++ a :: A2, pdCell x = x := by
    intro x hx
    rw [← hAsplit] at hx
    exact pdCell_rollingMean7 (hA ▸ hx)
  have hroll : rollingMean7 ((P ++ N :: Q).map (fun r => r.volume_24h_usd)) =
      A1 ++ a :: A2 := by
    rw [← hPQ, ← hA, hAsplit]
  refine ⟨P, Q, A1, a, A2, ?_, hlenA1.symm, hlenA2.symm, hsort', hPdate, hQdate,
    hTnorm', hAnorm, hroll⟩
  rw [hup, hPQ, hAsplit, applyAvg_append P (N :: Q) A1 (a :: A2) hlenA1.symm]
  rfl

/-- Unfolding equation for `upsert_today`. -/
theorem upsert_today_eq (df : List MetricRow) (d : PyStr) (row : MetricRow) :
    upsert_today df d row =
      applyAvg
        (List.insertionSort rowLe
          ((df.map pdRow).filter (fun r => r.date != d) ++ [pdRow row]))
        (rollingMean7
          ((List.insertionSort rowLe
            ((df.map pdRow).filter (fun r => r.date != d) ++ [pdRow row])).map
              (fun r => r.volume_24h_usd))) := rfl

theorem map_pdRow_of_norm :
    ∀ (l : List MetricRow), (∀ x ∈ l, pdRow x = x) → l.map pdRow = l
  | [], _ => rfl
  | x :: l, h => by
    rw [List.map_cons, h x (by simp),
      map_pdRow_of_norm l (fun y hy => h y (by simp [hy]))]

/-- C3: for every prior stored series and every row, applying `upsert_today`
twice with the identical `(date, row)` pair yields a stored series identical
to applying it once. -/
theorem c3_upsert_today_idem (df : List MetricRow) (d : PyStr) (row : MetricRow)
    (hrow : row.date = d) :
    upsert_today (upsert_today df d row) d row = upsert_today df d row := by
  classical
  obtain ⟨P, Q, A1, a, A2, e1, e2, e3, e4, e5, e6, e7, e8, e9⟩ :=
    upsert_today_decomp df d row hrow
  set N := pdRow row with hN
  set P1 := applyAvg P A1 with hP1
  set Q1 := applyAvg Q A2 with hQ1
  set M := setAvg N a with hM
  have hNdate : N.date = d := hrow
  have hMdate : M.date = d := hrow
  -- the parts of the first result are already frame-normalised
  have hPnorm : ∀ x ∈ P, pdRow x = x := fun x hx => e7 x (List.mem_append_left _ hx)
  have hNnorm : pdRow N = N := e7 N (by simp)
  have hQnorm : ∀ x ∈ Q, pdRow x = x := fun x hx => e7 x (by simp [hx])
  have hA1norm : ∀ x ∈ A1, pdCell x = x := fun x hx => e8 x (List.mem_append_left _ hx)
  have hanorm : pdCell a = a := e8 a (by simp)
  have hA2norm : ∀ x ∈ A2, pdCell x = x := fun x hx => e8 x (by simp [hx])
  have hP1norm : ∀ x ∈ P1, pdRow x = x := by
    intro x hx
    obtain ⟨t, ht, b, hb, rfl⟩ := mem_applyAvg hx
    exact pdRow_setAvg (hPnorm t ht) (hA1norm b hb)
  have hQ1norm : ∀ x ∈ Q1, pdRow x = x := by
    intro x hx
    obtain ⟨t, ht, b, hb, rfl⟩ := mem_applyAvg hx
    exact pdRow_setAvg (hQnorm t ht) (hA2norm b hb)
  have hMnorm : pdRow M = M := pdRow_setAvg hNnorm hanorm
  have hS1norm : ∀ x ∈ P1 ++ M :: Q1, pdRow x = x := by
    intro x hx
    rcases List.mem_append.mp hx with hx | hx
    · exact hP1norm x hx
    · rcases List.mem_cons.mp hx with rfl | hx
      · exact hMnorm
      · exact hQ1norm x hx
  -- dates of the parts avoid the upserted date
  have hP1date : ∀ x ∈ P1, x.date ≠ d := by
    intro x hx
    obtain ⟨t, ht, b, hb, rfl⟩ := mem_applyAvg hx
    exact e5 t ht
  have hQ1date : ∀ x ∈ Q1, x.date ≠ d := by
    intro x hx
    obtain ⟨t, ht, b, hb, rfl⟩ := mem_applyAvg hx
    exact e6 t ht
  -- step 1: re-reading the frame is the identity
  have hmapS1 : (P1 ++ M :: Q1).map pdRow = P1 ++ M :: Q1 :=
    map_pdRow_of_norm _ hS1norm
  -- step 2: dropping the rows dated `d` removes exactly `M`
  have hfilter : (P1 ++ M :: Q1).filter (fun r => r.date != d) = P1 ++ Q1 := by
    rw [List.filter_append, List.filter_cons]
    have hMfalse : (M.date != d) = false := by simp [hMdate]
    rw [hMfalse]
    simp only [Bool.false_eq_true, if_false]
    rw [List.filter_eq_self.mpr (fun x hx => by simp [hP1date x hx]),
      List.filter_eq_self.mpr (fun x hx => by simp [hQ1date x hx])]
  -- step 3: re-sorting puts the fresh row back where it was
  have hmapP1 : P1.map (fun r => r.date) = P.map (fun r => r.date) :=
    map_date_applyAvg P A1 (le_of_eq e2)
  have hmapQ1 : Q1.map (fun r => r.date) = Q.map (fun r => r.date) :=
    map_date_applyAvg Q A2 (le_of_eq e3)
  have hsort1 : List.Sorted rowLe (P1 ++ N :: Q1) := by
    rw [sorted_rowLe_iff_map_date] at e4 ⊢
    simpa [hmapP1, hmapQ1] using e4
  have hNQ : List.Sorted rowLe (N :: Q) :=
    ((List.pairwise_append.mp e4).2.1 : List.Pairwise rowLe (N :: Q))
  have hQgt : ∀ q ∈ Q, ¬ rowLe q N := by
    intro q hq hle
    have h1 : N.date ≤ q.date := List.rel_of_sorted_cons hNQ q hq
    have h2 : q.date ≠ d := e6 q hq
    exact h2 (le_antisymm (hNdate ▸ hle) (hNdate ▸ h1))
  have hQ1gt : ∀ q ∈ Q1, ¬ rowLe q N := by
    intro q hq
    obtain ⟨t, ht, b, hb, rfl⟩ := mem_applyAvg hq
    exact hQgt t ht
  have hsortT2 : List.insertionSort rowLe (P1 ++ Q1 ++ [N]) = P1 ++ N :: Q1 :=
    insertionSort_middle P1 hsort1 hQ1gt
  -- step 4: the volume column, hence the rolling column, is unchanged
  have hvolP1 : P1.map (fun r => r.volume_24h_usd) = P.map (fun r => r.volume_24h_usd) :=
    map_vol_applyAvg P A1 (le_of_eq e2)
  have hvolQ1 : Q1.map (fun r => r.volume_24h_usd) = Q.map (fun r => r.volume_24h_usd) :=
    map_vol_applyAvg Q A2 (le_of_eq e3)
  have hroll2 :
      rollingMean7 ((P1 ++ N :: Q1).map (fun r => r.volume_24h_usd)) =
        A1 ++ a :: A2 := by
    rw [← e9]
    simp [hvolP1, hvolQ1]
  -- put the pieces together
  have hlenP1 : P1.length = A1.length := by
    rw [hP1, applyAvg, List.length_zipWith, ← e2, Nat.min_self]
  rw [e1, upsert_today_eq, hmapS1, hfilter, ← hN, hsortT2, hroll2,
    applyAvg_append P1 (N :: Q1) A1 (a :: A2) hlenP1]
  show applyAvg P1 A1 ++ setAvg N a :: applyAvg Q1 A2 = P1 ++ M :: Q1
  rw [hP1, applyAvg_applyAvg, ← hP1, hQ1, applyAvg_applyAvg, ← hQ1, ← hM]

/-- Witness for C3 at a concrete input. -/
theorem c3_upsert_today_idem_witness :
    upsert_today (upsert_today [mkRow "d1".data (some (.num 5))] "d2".data
        (mkRow "d2".data (some (.num 7)))) "d2".data (mkRow "d2".data (some (.num 7))) =
      upsert_today [mkRow "d1".data (some (.num 5))] "d2".data
        (mkRow "d2".data (some (.num 7))) :=
  c3_upsert_today_idem [mkRow "d1".data (some (.num 5))] "d2".data
    (mkRow "d2".data (some (.num 7))) rfl

/-- C5: for every prior stored series (including one already containing rows
with today's date) and every new row, the series returned by `upsert_today`
contains exactly one row whose date equals the upserted date. -/
theorem c5_upsert_unique_date (df : List MetricRow) (d : PyStr) (row : MetricRow)
    (hrow : row.date = d) :
    (upsert_today df d row).countP (fun r => r.date == d) = 1 := by
  obtain ⟨P, Q, A1, a, A2, e1, _, _, _, e5, e6, _, _, _⟩ :=
    upsert_today_decomp df d row hrow
  rw [e1, List.countP_append, List.countP_cons]
  have hP0 : (applyAvg P A1).countP (fun r => r.date == d) = 0 := by
    rw [List.countP_eq_zero]
    intro x hx
    obtain ⟨t, ht, b, hb, rfl⟩ := mem_applyAvg hx
    simpa using e5 t ht
  have hQ0 : (applyAvg Q A2).countP (fun r => r.date == d) = 0 := by
    rw [List.countP_eq_zero]
    intro x hx
    obtain ⟨t, ht, b, hb, rfl⟩ := mem_applyAvg hx
    simpa using e6 t ht
  have hMid : ((setAvg (pdRow row) a).date == d) = true := by
    simpa using hrow
  rw [hP0, hQ0, hMid]
  rfl

/-- Witness for C5 at a concrete input: the store already holds two rows
dated `d1` (a corrupted duplicate) and one is upserted for `d1` again. -/
theorem c5_upsert_unique_date_witness :
    (upsert_today [mkRow "d1".data none, mkRow "d1".data (some (.num 3))] "d1".data
        (mkRow "d1".data (some (.num 9)))).countP
      (fun r => r.date == "d1".data) = 1 :=
  c5_upsert_unique_date [mkRow "d1".data none, mkRow "d1".data (some (.num 3))]
    "d1".data (mkRow "d1".data (some (.num 9))) rfl

/-- C2 counterexample: every live source for `tvl` fails today (`None` from
the APIs, nothing scraped), yesterday's stored row has `tvl = 1000000`, yet
today's reconciled row stores `tvl` as absent — the last known value is
not carried forward. -/
theorem c2_counterexample :
    (upsert_today [{ mkRow "d1".data none with tvl_usd := some (.num 1000000) }]
        "d2".data
        (main_today_row "d2".data none none ⟨none, none, none, none⟩ ⟨none, none⟩
          ⟨none, none, none, none, none, none, none, none⟩)).map
      (fun r => (r.date, r.tvl_usd)) =
      [("d1".data, some (.num 1000000)), ("d2".data, none)] := by
  decide

/-- C2 as amended: there is no fallback to the most recent persisted row.
If every live source for `tvl` fails (API value `None` and nothing scraped
for it), the row stored for today has `tvl_usd` absent, whatever the prior
series contains. -/
theorem c2_no_carry_forward (df : List MetricRow) (d : PyStr)
    (vol : Option PyFloat) (fees : FeesMap) (bribes : BribeMap) (scraped : Scraped)
    (tvl : Option PyFloat) (htvl : tvl = none) (hscr : scraped.tvl_usd = none) :
    ∀ r ∈ upsert_today df d (main_today_row d vol tvl fees bribes scraped),
      r.date = d → r.tvl_usd = none := by
  classical
  set row := main_today_row d vol tvl fees bribes scraped with hrowdef
  have hrow : row.date = d := rfl
  have hrowtvl : row.tvl_usd = none := by
    rw [hrowdef]
    unfold main_today_row
    simp only [hscr, htvl, Option.isSome_none, Bool.and_false, Bool.false_and,
      Bool.and_self, if_false]
    rfl
  obtain ⟨P, Q, A1, a, A2, e1, _, _, _, e5, e6, _, _, _⟩ :=
    upsert_today_decomp df d row hrow
  intro r hr hd
  rw [e1] at hr
  rcases List.mem_append.mp hr with hr | hr
  · obtain ⟨t, ht, b, hb, rfl⟩ := mem_applyAvg hr
    exact absurd hd (e5 t ht)
  · rcases List.mem_cons.mp hr with rfl | hr
    · show pdCell row.tvl_usd = none
      rw [hrowtvl]
      rfl
    · obtain ⟨t, ht, b, hb, rfl⟩ := mem_applyAvg hr
      exact absurd hd (e6 t ht)

/-- Witness for C2-as-amended at a concrete input. -/
theorem c2_no_carry_forward_witness : (mkRow "d2".data none).tvl_usd = none :=
  c2_no_carry_forward [{ mkRow "d1".data none with tvl_usd := some (.num 1000000) }]
    "d2".data none ⟨none, none, none, none⟩ ⟨none, none⟩
    ⟨none, none, none, none, none, none, none, none⟩ none rfl rfl
    (mkRow "d2".data none) (by decide) (by decide)

theorem map_avg_applyAvg :
    ∀ (rows : List MetricRow) (avgs : List (Option PyFloat)),
      rows.length = avgs.length →
      (applyAvg rows avgs).map (fun r => r.avg7d_volume_usd) = avgs
  | [], [], _ => rfl
  | [], _ :: _, h => by simp at h
  | _ :: _, [], h => by simp at h
  | r :: rows, a :: avgs, h => by
    simp only [applyAvg, List.zipWith_cons_cons, List.map_cons]
    rw [show List.zipWith setAvg rows avgs = applyAvg rows avgs from rfl,
      map_avg_applyAvg rows avgs (by simpa using h)]
    rfl

/-- C4 as amended: after `upsert_today`, the `avg7d_volume_usd` column is the
positional trailing-window mean of the stored `volume_24h_usd` column: entry
`i` is the mean of the non-absent volume values among rows `i-6 .. i` of the
date-sorted series.  Absent rows do consume window slots (they are only
excluded from the mean), so the window is the last 7 rows, not the last 7
available values. -/
theorem c4_rolling_positional_window (df : List MetricRow) (d : PyStr) (row : MetricRow) :
    (upsert_today df d row).map (fun r => r.avg7d_volume_usd) =
      (List.range (upsert_today df d row).length).map
        (windowMean7 ((upsert_today df d row).map (fun r => r.volume_24h_usd))) := by
  rw [upsert_today_eq]
  set T := List.insertionSort rowLe
    ((df.map pdRow).filter (fun r => r.date != d) ++ [pdRow row]) with hT
  set xs := T.map (fun r => r.volume_24h_usd) with hxs
  have hlen : T.length = (rollingMean7 xs).length := by
    rw [length_rollingMean7, hxs, List.length_map]
  have h1 : (applyAvg T (rollingMean7 xs)).map (fun r => r.avg7d_volume_usd) =
      rollingMean7 xs := map_avg_applyAvg T _ hlen
  have h2 : (applyAvg T (rollingMean7 xs)).map (fun r => r.volume_24h_usd) = xs :=
    map_vol_applyAvg T _ (le_of_eq hlen)
  have h3 : (applyAvg T (rollingMean7 xs)).length = T.length := by
    rw [applyAvg, List.length_zipWith, ← hlen, Nat.min_self]
  rw [h1, h2, h3, rollingMean7, hxs, List.length_map]

/-- C4 counterexample: with volumes `[10, gap, gap, gap, gap, gap, gap, 20]`
the stored rolling value of the last row is `20` (the positional 7-row
window has slid past the `10`), not the `15` the claim's skip-the-gaps
semantics demands. -/
theorem c4_counterexample :
    ((upsert_today c4prior "d8".data (mkRow "d8".data (some (.num 20)))).map
        (fun r => r.avg7d_volume_usd)).getLast? = some (some (.num 20)) ∧
      specLast7AvailableMean
        ((upsert_today c4prior "d8".data (mkRow "d8".data (some (.num 20)))).map
          (fun r => r.volume_24h_usd)) = some (.num 15) ∧
      some (PyFloat.num 20) ≠ some (PyFloat.num 15) := by
  have hmap : c4prior.map pdRow = c4prior := by decide
  have hfil : c4prior.filter (fun r => r.date != "d8".data) = c4prior := by decide
  have hpd8 : pdRow (mkRow "d8".data (some (.num 20))) =
      mkRow "d8".data (some (.num 20)) := by decide
  have hsorted : List.Sorted rowLe
      (c4prior ++ mkRow "d8".data (some (.num 20)) :: []) := by
    rw [List.Sorted]
    decide
  have hq : ∀ q ∈ ([] : List MetricRow), ¬ rowLe q (mkRow "d8".data (some (.num 20))) := by
    simp
  have hsort : List.insertionSort rowLe (c4prior ++ [mkRow "d8".data (some (.num 20))]) =
      c4prior ++ [mkRow "d8".data (some (.num 20))] := by
    have h := insertionSort_middle c4prior hsorted hq
    simpa using h
  have hup : upsert_today c4prior "d8".data (mkRow "d8".data (some (.num 20))) =
      applyAvg (c4prior ++ [mkRow "d8".data (some (.num 20))])
        (rollingMean7 ((c4prior ++ [mkRow "d8".data (some (.num 20))]).map
          (fun r => r.volume_24h_usd))) := by
    rw [upsert_today_eq, hmap, hfil, hpd8, hsort]
  have hvols : (c4prior ++ [mkRow "d8".data (some (.num 20))]).map
      (fun r => r.volume_24h_usd) =
      [some (.num 10), none, none, none, none, none, none, some (.num 20)] := by
    decide
  have hcol : (upsert_today c4prior "d8".data (mkRow "d8".data (some (.num 20)))).map
      (fun r => r.avg7d_volume_usd) =
      rollingMean7 [some (.num 10), none, none, none, none, none, none,
        some (.num 20)] := by
    rw [hup, map_avg_applyAvg _ _ (by simp [length_rollingMean7]), hvols]
  have hvolcol : (upsert_today c4prior "d8".data (mkRow "d8".data (some (.num 20)))).map
      (fun r => r.volume_24h_usd) =
      [some (.num 10), none, none, none, none, none, none, some (.num 20)] := by
    rw [hup, map_vol_applyAvg _ _ (by simp [length_rollingMean7]), hvols]
  refine ⟨?_, ?_, by decide⟩
  · rw [hcol]
    have hrange : List.range 8 = [0, 1, 2, 3, 4, 5, 6, 7] := by decide
    rw [rollingMean7]
    rw [show ([some (PyFloat.num 10), none, none, none, none, none, none,
        some (PyFloat.num 20)] : List (Option PyFloat)).length = 8 from rfl, hrange]
    simp only [List.map_cons, List.map_nil, List.getLast?_cons_cons,
      List.getLast?_singleton]
    have hvals : ((([some (PyFloat.num 10), none, none, none, none, none, none,
        some (PyFloat.num 20)] : List (Option PyFloat)).take (7 + 1)).drop
          (7 + 1 - 7)).filterMap finitePart = [(20 : ℚ)] := by decide
    simp only [windowMean7, hvals]
    norm_num [List.sum_cons, List.sum_nil]
  · rw [hvolcol]
    have hvals2 : ([some (PyFloat.num 10), none, none, none, none, none, none,
        some (PyFloat.num 20)] : List (Option PyFloat)).filterMap finitePart =
        [(10 : ℚ), 20] := by decide
    simp only [specLast7AvailableMean, hvals2]
    norm_num [List.sum_cons, List.sum_nil]

theorem pdCell_fix_ne_nan {v : Option PyFloat} (h : pdCell v = v) :
    v ≠ some PyFloat.nan := by
  intro hv
  rw [hv] at h
  exact Option.noConfusion h

/-- Every row coming out of `upsert_today` is frame-normalised. -/
theorem upsert_today_norm (df : List MetricRow) (d : PyStr) (row : MetricRow) :
    ∀ r ∈ upsert_today df d row, pdRow r = r := by
  rw [upsert_today_eq]
  intro r hr
  obtain ⟨t, ht, a, ha, rfl⟩ := mem_applyAvg hr
  have ht' : pdRow t = t := by
    have hmem : t ∈ (df.map pdRow).filter (fun r => r.date != d) ++ [pdRow row] :=
      (List.perm_insertionSort rowLe _).mem_iff.mp ht
    rcases List.mem_append.mp hmem with h | h
    · rcases List.mem_map.mp (List.mem_of_mem_filter h) with ⟨y, _, rfl⟩
      exact pdRow_pdRow y
    · rcases List.mem_singleton.mp h with rfl
      exact pdRow_pdRow row
  exact pdRow_setAvg ht' (pdCell_rollingMean7 ha)

/-- C7 as amended: every metric cell persisted by `upsert_today` is either
absent or a finite (non-NaN) float — a NaN arriving from any source is
collapsed to absent when the row enters the frame/CSV.  (The sign is not
checked anywhere: negative values persist as-is, see the counterexample.) -/
theorem c7_no_nan_persisted (df : List MetricRow) (d : PyStr) (row : MetricRow) :
    ∀ r ∈ upsert_today df d row, ∀ v ∈ r.cells, v ≠ some PyFloat.nan := by
  intro r hr v hv
  have h := upsert_today_norm df d row r hr
  cases r
  simp only [pdRow, MetricRow.mk.injEq] at h
  obtain ⟨-, h1, h2, h3, h4, h5, h6, h7, h8, h9⟩ := h
  simp only [MetricRow.cells, List.mem_cons, List.not_mem_nil, or_false] at hv
  rcases hv with rfl | rfl | rfl | rfl | rfl | rfl | rfl | rfl | rfl
  · exact pdCell_fix_ne_nan h1
  · exact pdCell_fix_ne_nan h2
  · exact pdCell_fix_ne_nan h3
  · exact pdCell_fix_ne_nan h4
  · exact pdCell_fix_ne_nan h5
  · exact pdCell_fix_ne_nan h6
  · exact pdCell_fix_ne_nan h7
  · exact pdCell_fix_ne_nan h8
  · exact pdCell_fix_ne_nan h9

/-- Witness for C7-as-amended at a concrete input: a NaN fee cell entering
the upsert is persisted as absent, never as NaN. -/
theorem c7_no_nan_persisted_witness : (none : Option PyFloat) ≠ some PyFloat.nan :=
  c7_no_nan_persisted [] "d1".data { mkRow "d1".data none with fees_24h_usd := some .nan }
    { mkRow "d1".data none with fees_24h_usd := none } (by decide) none (by decide)

/-- C7 counterexample: nothing makes persisted values non-negative.  A
negative fee total delivered by the upstream feed passes `to_float`
unchanged, enters today's row, and is persisted as `-5`. -/
theorem c7_counterexample :
    to_float (Json.num (-5)) = some (PyFloat.num (-5)) ∧
      (upsert_today [] "d1".data
          (main_today_row "d1".data none none
            ⟨some (.num (-5)), none, none, none⟩ ⟨none, none⟩
            ⟨none, none, none, none, none, none, none, none⟩)).map
        (fun r => r.fees_24h_usd) = [some (.num (-5))] ∧
      (-5 : ℚ) < 0 := by
  refine ⟨rfl, by decide, by norm_num⟩

theorem exBind_ok {α β : Type} (a : α) (f : α → Except String β) :
    (Except.ok a >>= f) = f a := rfl

theorem exBind_error {α β : Type} (e : String) (f : α → Except String β) :
    ((Except.error e : Except String α) >>= f) = Except.error e := rfl

theorem isOk_ok {α : Type} (a : α) : (Except.ok a : Except String α).isOk = true := rfl

theorem isOk_error {α : Type} (e : String) :
    (Except.error e : Except String α).isOk = false := rfl

theorem isOk_pure {α : Type} (a : α) : (pure a : Except String α).isOk = true := rfl

theorem exBind2_ok {α β : Type} (a : α) (f : α → Except String β) :
    Except.bind (Except.ok a) f = f a := rfl

theorem exBind2_error {α β : Type} (e : String) (f : α → Except String β) :
    Except.bind (Except.error e : Except String α) f = Except.error e := rfl

theorem volAccum_isOk (st : PyFloat × Nat) (p : Json) :
    (volAccum st p).isOk = pairBenign p := by
  cases p with
  | null => rfl
  | bool b => rfl
  | num q => rfl
  | str s => rfl
  | arr items => rfl
  | obj l =>
    simp only [volAccum, pairBenign, pyGet, pyGetD, pyLowerOr, exBind_ok]
    rcases hcid : pyOr ((jLookup l "chainId").getD Json.null) (Json.str "") with
      _ | b | q | cid | items | fields
    · rfl
    · rfl
    · rfl
    · dsimp only
      simp only [exBind_ok, exBind2_ok]
      by_cases hav : strLower cid = "avalanche"
      · have hcond : ¬(strLower cid ≠ "avalanche") := not_not_intro hav
        rw [if_neg hcond, if_neg hcond]
        rcases hdex : pyOr ((jLookup l "dexId").getD Json.null) (Json.str "") with
          _ | b2 | q2 | dex | items2 | fields2
        · rfl
        · rfl
        · rfl
        · dsimp only
          simp only [exBind_ok, exBind2_ok]
          rcases hurl : pyOr ((jLookup l "url").getD Json.null) (Json.str "") with
            _ | b3 | q3 | url | items3 | fields3
          · rfl
          · rfl
          · rfl
          · dsimp only
            simp only [exBind_ok, exBind2_ok]
            by_cases hkw : (strContains (strLower dex) "blackhole" ||
                strContains (strLower url) "blackhole") = true
            · have hkw2 : (!(strContains (strLower dex) "blackhole" ||
                  strContains (strLower url) "blackhole")) = false := by
                rw [hkw]
                rfl
              rw [hkw2]
              simp only [Bool.false_eq_true, if_false, exBind_ok, exBind2_ok]
              rcases hvol : (jLookup l "volume").getD (Json.obj []) with
                _ | b4 | q4 | s4 | items4 | fields4
              · rfl
              · rfl
              · rfl
              · rfl
              · rfl
              · dsimp only
                cases to_float ((jLookup fields4 "h24").getD
                    ((jLookup l "volume24h").getD Json.null)) <;> rfl
            · have hkw2 : (!(strContains (strLower dex) "blackhole" ||
                  strContains (strLower url) "blackhole")) = true := by
                simp only [Bool.not_eq_true] at hkw ⊢
                simpa using hkw
              rw [hkw2]
              rfl
          · rfl
          · rfl
        · rfl
        · rfl
      · have hcond : strLower cid ≠ "avalanche" := hav
        rw [if_pos hcond, if_pos hcond]
        rfl
    · rfl
    · rfl

theorem exIsOk_bind_pure {α β : Type} (x : Except String α) (g : α → β) :
    (x >>= fun a => pure (g a) : Except String β).isOk = x.isOk := by
  cases x <;> rfl

theorem exBindP {α β : Type} (a : α) (f : α → Except String β) :
    ((pure a : Except String α) >>= f) = f a := rfl

theorem exBind2P {α β : Type} (a : α) (f : α → Except String β) :
    Except.bind (pure a : Except String α) f = f a := rfl

theorem exIsOk_bind_pure2 {α β : Type} (x : Except String α) (g : α → β) :
    (Except.bind x (fun a => (pure (g a) : Except String β))).isOk = x.isOk := by
  cases x <;> rfl

theorem foldlM_volAccum_isOk :
    ∀ (ps : List Json) (st : PyFloat × Nat),
      (ps.foldlM volAccum st).isOk = ps.all pairBenign
  | [], st => rfl
  | p :: ps, st => by
    have hstep : (p :: ps).foldlM volAccum st =
        volAccum st p >>= fun st2 => ps.foldlM volAccum st2 := rfl
    rw [hstep, List.all_cons]
    rcases hv : volAccum st p with e | st2
    · have hb : pairBenign p = false := by
        rw [← volAccum_isOk st p, hv]
        rfl
      rw [hb]
      simp only [exBind_error, exBind2_error, isOk_error, Bool.false_and]
    · have hb : pairBenign p = true := by
        rw [← volAccum_isOk st p, hv]
        rfl
      rw [hb]
      simp only [exBind_ok, exBind2_ok, Bool.true_and]
      exact foldlM_volAccum_isOk ps st2

theorem get_blackhole_volume_24h_isOk (o : FetchOutcome) :
    (get_blackhole_volume_24h o).isOk =
      payloadBenign (safe_get_json dsSearchUrl o) := by
  unfold get_blackhole_volume_24h payloadBenign pairsOf
  dsimp only
  generalize safe_get_json dsSearchUrl o = payload
  rcases hbase : pyOr payload (Json.obj []) with _ | b | q | s | items | fields
  · rfl
  · rfl
  · rfl
  · rfl
  · rfl
  · dsimp only [pyGet]
    simp only [exBind_ok, exBind2_ok]
    rcases hpair : pyOr ((jLookup fields "pairs").getD Json.null) (Json.arr []) with
      _ | b2 | q2 | s2 | ps | fs
    · rfl
    · rfl
    · rfl
    · have htr : jTruthy (Json.str s2) = true := by
        unfold pyOr at hpair
        split at hpair
        · next h => rw [hpair] at h; exact h
        · exact absurd hpair (by simp)
      have hne : ¬s2.isEmpty := by simpa [jTruthy] using htr
      dsimp only
      simp only [exBind_ok, exBind2_ok, exBindP, exBind2P, exIsOk_bind_pure,
        exIsOk_bind_pure2]
      rw [foldlM_volAccum_isOk]
      have hdata : s2.data ≠ [] := by
        intro h
        apply hne
        cases s2
        subst h
        rfl
      rcases hd : s2.data with _ | ⟨c, cs⟩
      · exact absurd hd hdata
      · rfl
    · dsimp only
      simp only [exBind_ok, exBind2_ok, exBindP, exBind2P, exIsOk_bind_pure,
        exIsOk_bind_pure2]
      rw [foldlM_volAccum_isOk]
    · have htr : jTruthy (Json.obj fs) = true := by
        unfold pyOr at hpair
        split at hpair
        · next h => rw [hpair] at h; exact h
        · exact absurd hpair (by simp)
      have hne : fs ≠ [] := by simpa [jTruthy] using htr
      dsimp only
      simp only [exBind_ok, exBind2_ok, exBindP, exBind2P, exIsOk_bind_pure,
        exIsOk_bind_pure2]
      rw [foldlM_volAccum_isOk]
      rcases fs with _ | ⟨kv, rest⟩
      · exact absurd rfl hne
      · rfl

/-- C6 as amended: `safe_get_json` is total — for every outcome it returns
either the parsed payload or the error-marked dict, never letting the
exception escape — but the per-metric fetcher built on it is not:
`get_blackhole_volume_24h` returns a value exactly for the payload shapes
`payloadBenign` describes (a falsy or dict payload whose `pairs` entries
are well-shaped), and propagates `AttributeError`/`TypeError` on other
legal JSON shapes such as a top-level array. -/
theorem c6_fetch_error_handling :
    (∀ (url : String) (o : FetchOutcome),
        (∃ j, o = FetchOutcome.json j ∧ safe_get_json url o = j) ∨
          (∃ m, o = FetchOutcome.exc m ∧ safe_get_json url o =
            Json.obj [("_error", Json.str m), ("_url", Json.str url)])) ∧
      ∀ o : FetchOutcome,
        (get_blackhole_volume_24h o).isOk =
          payloadBenign (safe_get_json dsSearchUrl o) := by
  constructor
  · intro url o
    cases o with
    | json j => exact Or.inl ⟨j, rfl, rfl⟩
    | exc m => exact Or.inr ⟨m, rfl, rfl⟩
  · exact get_blackhole_volume_24h_isOk

/-- C6 counterexample: a perfectly valid upstream response whose JSON body
is a non-empty array makes `get_blackhole_volume_24h` raise
`AttributeError` (`(payload or ...).get("pairs")` on a list) instead of
returning a value. -/
theorem c6_counterexample :
    get_blackhole_volume_24h (FetchOutcome.json (Json.arr [Json.null])) =
        Except.error "AttributeError: get" ∧
      (get_blackhole_volume_24h (FetchOutcome.json (Json.arr [Json.null]))).isOk =
        false :=
  ⟨rfl, rfl⟩

theorem joinNl_singleton (l : PyStr) : joinNl [l] = l := by
  simp [joinNl, List.intercalate]

theorem keepLoop_take :
    ∀ (rest acc : List PyStr),
      ∃ n, keepLoop acc rest = acc ++ rest.take n ∧
        (n = rest.length ∨ 240 < (joinNl (acc ++ rest.take (n + 1))).length)
  | [], acc => ⟨0, by simp [keepLoop], Or.inl rfl⟩
  | l :: rest, acc => by
    by_cases h : 240 < (joinNl (acc ++ [l])).length
    · refine ⟨0, ?_, Or.inr ?_⟩
      · simp [keepLoop, h]
      · simpa using h
    · obtain ⟨n, hn, hmax⟩ := keepLoop_take rest (acc ++ [l])
      refine ⟨n + 1, ?_, ?_⟩
      · rw [keepLoop, if_neg h, hn, List.append_assoc]
        simp [List.take_succ_cons]
      · rcases hmax with h1 | h1
        · left
          simp [h1]
        · right
          rw [List.take_succ_cons, ← List.singleton_append, ← List.append_assoc]
          exact h1

/-- C8 as amended: the composer keeps a maximal prefix of the summary's
stripped non-empty lines whose joined length stays within 240 characters —
whole trailing (lower-priority) lines are dropped before earlier ones, and
a line is only dropped when keeping it would overflow.  There are no
priority tiers beyond file order, and nothing protects the 24h-volume line:
it is dropped whenever the headline region before it is long enough (see
the counterexample). -/
theorem c8_keep_is_maximal_line_prefix (raw : PyStr) :
    ∃ n, loadKeep raw = (summaryLines (pyStrip raw)).take n ∧
      (n = (summaryLines (pyStrip raw)).length ∨
        240 < (joinNl ((summaryLines (pyStrip raw)).take (n + 1))).length) := by
  obtain ⟨n, hn, hmax⟩ := keepLoop_take (summaryLines (pyStrip raw)) []
  refine ⟨n, by simpa using hn, ?_⟩
  simpa using hmax

set_option maxRecDepth 4000 in
/-- C8 counterexample: a summary whose total content exceeds the 280 budget
(200-character headline plus a 100-character 24h-volume line).  The
composer keeps the headline and drops the volume line entirely, so the
primary volume line is not protected from removal. -/
theorem c8_counterexample :
    load_summary (List.replicate 200 'a' ++ '\n' ::
        ("24h Volume: $".data ++ List.replicate 87 '9')) =
        List.replicate 200 'a' ++ '\n' :: HASHTAGS ∧
      infixAt "24h Volume".data
        (load_summary (List.replicate 200 'a' ++ '\n' ::
          ("24h Volume: $".data ++ List.replicate 87 '9'))) = false ∧
      280 < (List.replicate 200 'a' ++ '\n' ::
        ("24h Volume: $".data ++ List.replicate 87 '9')).length := by
  refine ⟨by decide, by decide, by decide⟩

/-- C9 as amended: when the headline line alone exceeds 240 characters,
`load_summary` raises no error and performs no tier analysis: it silently
truncates the stripped file content to its first 240 characters and
appends the hashtag block. -/
theorem c9_overlong_headline_truncates (raw : PyStr) (l0 : PyStr) (ls : List PyStr)
    (hlines : summaryLines (pyStrip raw) = l0 :: ls) (hlong : 240 < l0.length) :
    load_summary raw =
      pyStrip (pyRstrip ((pyStrip raw).take 240) ++ '\n' :: HASHTAGS) := by
  have hkeep : loadKeep raw = [] := by
    rw [loadKeep, hlines, keepLoop, if_pos]
    rw [List.nil_append, joinNl_singleton]
    exact hlong
  have hcore : loadCore raw = pyRstrip ((pyStrip raw).take 240) := by
    rw [loadCore, hkeep]
    rfl
  have hc : (pyStrip (loadCore raw ++ '\n' :: HASHTAGS)).length ≤ MAX_LEN := by
    calc (pyStrip (loadCore raw ++ '\n' :: HASHTAGS)).length
        ≤ (loadCore raw ++ '\n' :: HASHTAGS).length := length_pyStrip_le _
      _ = (loadCore raw).length + 36 := by
          rw [List.length_append]
          rfl
      _ ≤ 240 + 36 := by
          have h1 : (loadCore raw).length ≤ 240 := by
            rw [hcore]
            calc (pyRstrip ((pyStrip raw).take 240)).length
                ≤ ((pyStrip raw).take 240).length := length_pyRstrip_le _
              _ ≤ 240 := by
                  rw [List.length_take]
                  exact min_le_left _ _
          omega
      _ ≤ MAX_LEN := by norm_num [MAX_LEN]
  unfold load_summary
  dsimp only
  rw [if_pos hc, hcore]

set_option maxRecDepth 4000 in
/-- Witness for C9-as-amended at a concrete input: a single 300-character
headline. -/
theorem c9_overlong_headline_truncates_witness :
    load_summary (List.replicate 300 'a') =
      pyStrip (pyRstrip ((pyStrip (List.replicate 300 'a')).take 240) ++
        '\n' :: HASHTAGS) :=
  c9_overlong_headline_truncates (List.replicate 300 'a') (List.replicate 300 'a')
    [] (by decide) (by decide)

set_option maxRecDepth 4000 in
/-- C9 counterexample: with a 300-character headline (tier 0 alone above the
budget) `load_summary` returns a silently truncated text — the headline is
cut to 240 characters and the hashtag block appended — instead of
surfacing any error. -/
theorem c9_counterexample :
    load_summary (List.replicate 300 'a') =
        List.replicate 240 'a' ++ '\n' :: HASHTAGS ∧
      infixAt (List.replicate 300 'a') (load_summary (List.replicate 300 'a')) =
        false := by
  refine ⟨by decide, by decide⟩

theorem pyOrZero_none : pyOrZero none = PyFloat.num 0 := rfl

theorem pyOrZero_some (v : PyFloat) : pyOrZero (some v) = v := by
  cases v with
  | nan => rfl
  | num q =>
    by_cases h : q = 0
    · simp [pyOrZero, PyFloat.truthy, h]
    · simp [pyOrZero, PyFloat.truthy, h]

theorem pyFloat_add_zero (v : PyFloat) : v.add (.num 0) = v := by
  cases v with
  | nan => rfl
  | num q => simp [PyFloat.add]

theorem pyFloat_zero_add (v : PyFloat) : (PyFloat.num 0).add v = v := by
  cases v with
  | nan => rfl
  | num q => simp [PyFloat.add]

/-- C10: the combined `fees_24h_usd` (and likewise `fees_7d_usd`) is `None`
exactly when both per-slug totals are `None`; when exactly one side is
present the combined value silently equals that single source's value, and
when both are present it is their sum. -/
theorem c10_fee_combination (f24a f7a f24c f7c : Option PyFloat) :
    ((get_blackhole_fees_and_revenue f24a f7a f24c f7c).fees_24h_usd.isNone =
        (f24a.isNone && f24c.isNone)) ∧
      ((get_blackhole_fees_and_revenue f24a f7a f24c f7c).fees_7d_usd.isNone =
        (f7a.isNone && f7c.isNone)) ∧
      (∀ v, combineFees (some v) none = some v) ∧
      (∀ v, combineFees none (some v) = some v) ∧
      (∀ v w, combineFees (some v) (some w) = some (v.add w)) := by
  refine ⟨?_, ?_, ?_, ?_, ?_⟩
  · show (combineFees f24a f24c).isNone = _
    cases f24a <;> cases f24c <;> simp [combineFees]
  · show (combineFees f7a f7c).isNone = _
    cases f7a <;> cases f7c <;> simp [combineFees]
  · intro v
    simp [combineFees, pyOrZero_some, pyOrZero_none, pyFloat_add_zero]
  · intro v
    simp [combineFees, pyOrZero_some, pyOrZero_none, pyFloat_zero_add]
  · intro v w
    simp [combineFees, pyOrZero_some]

end Blackhole
